import Mathlib

/-!
Shallow embedding of the gonetmon rate-alerting engine (the `Watchdog` of
`src/params.go`): the time-windowed hit cache with head eviction, the
threshold state machine `verify`, the message builder `buildAlertMsg`, the
constructor `NewWatchdog`, and one iteration of the `select` of its goroutine
loop as the function `step`.

The Go `time.Time` is modelled as an integer instant (the zero value
`time.Time{}` is the instant 0) and `time.Duration` as an integer, so that
`now.Sub(e) > w.timeFrame` becomes `w.timeFrame < now - e`.  The cache
field `size` is a Go `uint`, modelled as `Nat`: its only decrement sits in
`evict` and runs just after an element was removed from a non-empty list,
so in every state where `size` equals the list length (the maintained
invariant) the decrement never reaches the wrap-around at 0 that the Go
`uint` arithmetic would exhibit.
-/

namespace Gonetmon

/-- Modelled from the spec: the format strings `defAlertFormat`,
`defRecoveryFormat` and the layout `defTimeLayout` used by `buildAlertMsg`
are declared outside the provided sources.  Per the spec, an alert body
contains the current hit count and a formatted timestamp and a recovery
body only a formatted timestamp, so the body string is modelled as the
structured data interpolated into the format string: the hit count (for an
alert) and the formatted time. -/
inductive MsgBody where
  | alertText (hits : Nat) (time : Int)
  | recoveryText (time : Int)
deriving Repr, DecidableEq

/-- The `alertMsg` struct, fields as written by `buildAlertMsg`:
`recovery`, `body`, `timestamp`. -/
structure alertMsg where
  recovery : Bool
  body : MsgBody
  timestamp : Int
deriving Repr, DecidableEq

/-- The `hitCache` struct of `src/params.go`.  The `push` channel is
modelled by the `Command.push` events consumed by `step`; `bufSize` is its
recorded capacity.  `list` is the doubly linked `list.List` with its front
at the head, `size` the maintained element count. -/
structure hitCache where
  bufSize : Nat
  list : List Int
  size : Nat
deriving Repr, DecidableEq

/-- The `Watchdog` struct of `src/params.go`.  The send-only `alertChan`
is modelled by the message lists returned by `verify` and `step`; the
`syn *Sync` field carries no state the engine reads. -/
structure Watchdog where
  cache : hitCache
  timeFrame : Int
  tick : Int
  threshold : Nat
  alert : Bool
deriving Repr, DecidableEq

/-- `Watchdog.Hits`: returns the current number of elements in the cache. -/
def Watchdog.Hits (w : Watchdog) : Nat :=
  w.cache.size

/-- `buildAlertMsg` of `src/params.go`: formats the body from the hit
count and time for an alert, from the time alone for a recovery, and sets
the `timestamp` field to `time.Time{}` (the zero value, i.e. `0`). -/
def buildAlertMsg (w : Watchdog) (recovery : Bool) (t : Int) : alertMsg :=
  { recovery := recovery
    body := if recovery then MsgBody.recoveryText t else MsgBody.alertText w.Hits t
    timestamp := 0 }

/-- `Watchdog.verify` of `src/params.go`: checks the cache, raising or
lowering the alert flag; returns the successor state and the messages sent
on `alertChan` during the call (`[]` or one message).  Mirrors the source
exactly: the early return tests `w.cache.list.Len() <= 0` on the list,
while the threshold test compares the maintained counter `w.cache.size`. -/
def Watchdog.verify (w : Watchdog) (now : Int) : Watchdog × List alertMsg :=
  if w.cache.list.length ≤ 0 then
    if w.alert then
      let w1 : Watchdog := { w with alert := false }
      (w1, [buildAlertMsg w1 true now])
    else
      (w, [])
  else
    if w.threshold ≤ w.cache.size then
      if !w.alert then
        let w1 : Watchdog := { w with alert := true }
        (w1, [buildAlertMsg w1 false now])
      else
        (w, [])
    else
      if w.alert then
        let w1 : Watchdog := { w with alert := false }
        (w1, [buildAlertMsg w1 true now])
      else
        (w, [])

/-- The eviction loop of `Watchdog.evict`: while the list is non-empty and
its front element `e` satisfies `now.Sub(e) > timeFrame`, remove the front
and decrement `size`; stop at the first element still inside the window. -/
def evictLoop (timeFrame : Int) (now : Int) : List Int → Nat → List Int × Nat
  | [], size => ([], size)
  | e :: rest, size =>
    if timeFrame < now - e then
      evictLoop timeFrame now rest (size - 1)
    else
      (e :: rest, size)

/-- `Watchdog.evict` of `src/params.go`: pops all values from the cache
that have passed the authorised window. -/
def Watchdog.evict (w : Watchdog) (now : Int) : Watchdog :=
  let r := evictLoop w.timeFrame now w.cache.list w.cache.size
  { w with cache := { w.cache with list := r.1, size := r.2 } }

/-- The `Parameters` struct.  `src/params.go` declares `Filter`,
`CollectorFile`, `ProbePeriod`, `AlertSpan`, `AlertThreshold`,
`DisplayRefresh`, `DisplayFormat`, `Output`; `NewWatchdog` additionally
reads `WatchdogTick` and `WatchdogBufSize`, whose declarations are not
among the provided sources — they are modelled from that usage and from
spec section 6 (tick cadence and submission-channel capacity). -/
structure Parameters where
  Filter : String
  CollectorFile : String
  ProbePeriod : Int
  AlertSpan : Int
  AlertThreshold : Nat
  DisplayRefresh : Int
  DisplayFormat : String
  Output : String
  WatchdogTick : Int
  WatchdogBufSize : Nat
deriving Repr, DecidableEq

/-- Default values for the `Parameters` object. -/
def defCollectorFile : String := "./gonetmon.dump"

def defProbePeriod : Int := 1

def defAlertSpan : Int := 120

def defAlertThreshold : Nat := 500

def defDisplayRefresh : Int := 10

def defDisplayFormat : String := "plain"

def defOutput : String := "cli"

/-- `LoadParams` of `src/params.go`: returns the default parameters.  The
source performs no argument validation (its own comment reads "Todo :
There should be a better way of doing this + argument validation") and has
no error result.  `Filter`, `WatchdogTick` and `WatchdogBufSize` are not
assigned there and hold their Go zero values. -/
def LoadParams : Parameters :=
  { Filter := ""
    CollectorFile := defCollectorFile
    ProbePeriod := defProbePeriod
    AlertSpan := defAlertSpan
    AlertThreshold := defAlertThreshold
    DisplayRefresh := defDisplayRefresh
    DisplayFormat := defDisplayFormat
    Output := defOutput
    WatchdogTick := 0
    WatchdogBufSize := 0 }

/-- The state built by `NewWatchdog` of `src/params.go`.  Like the Go
signature `func NewWatchdog(...) *Watchdog`, it has no error component and
performs no validation of the parameters; the goroutine it launches is
modelled by `step`. -/
def NewWatchdog (parameters : Parameters) : Watchdog :=
  { cache :=
      { bufSize := parameters.WatchdogBufSize
        list := []
        size := 0 }
    timeFrame := parameters.AlertSpan
    tick := parameters.WatchdogTick
    threshold := parameters.AlertThreshold
    alert := false }

/-- The three events the `select` of the goroutine of `NewWatchdog` can
receive: the synchronisation channel firing, a ticker tick carrying its
time `t`, and a push request carrying a hit timestamp. -/
inductive Command where
  | shutdown
  | tick (t : Int)
  | push (p : Int)
deriving Repr, DecidableEq

/-- One iteration of the `select` loop in the goroutine of `NewWatchdog`.
`now` is the wall clock `time.Now()` observed by `verify` if it builds a
message during this iteration.  Returns the successor state, the messages
sent on `alertChan`, and `true` exactly when the loop continues (the
shutdown case breaks out of `watchdogLoop`). -/
def step (w : Watchdog) (c : Command) (now : Int) : Watchdog × List alertMsg × Bool :=
  match c with
  | .shutdown => (w, [], false)
  | .tick t =>
    let r := (w.evict t).verify now
    (r.1, r.2, true)
  | .push p =>
    let w1 : Watchdog :=
      { w with cache := { w.cache with list := w.cache.list ++ [p], size := w.cache.size + 1 } }
    let r := w1.verify now
    (r.1, r.2, true)

/-- Runs one push step per element of `ts`, in order, discarding the
emitted messages: the cache state built from a sequence of pushes. -/
def runPushes (w : Watchdog) (ts : List Int) (now : Int) : Watchdog :=
  ts.foldl (fun v t => (step v (Command.push t) now).1) w

/-! ### Helper lemmas -/

/-- `verify` never touches the cache: only the `alert` flag changes. -/
theorem verify_fst_cache (w : Watchdog) (now : Int) : (w.verify now).1.cache = w.cache := by
  rw [Watchdog.verify]
  split_ifs <;> rfl

/-- `verify` never touches the window duration. -/
theorem verify_fst_timeFrame (w : Watchdog) (now : Int) :
    (w.verify now).1.timeFrame = w.timeFrame := by
  rw [Watchdog.verify]
  split_ifs <;> rfl

/-- The cache after a push step: the hit is appended at the tail and the
counter incremented, and the subsequent `verify` leaves both alone. -/
theorem step_push_fst_cache (w : Watchdog) (p now : Int) :
    (step w (Command.push p) now).1.cache =
      { bufSize := w.cache.bufSize, list := w.cache.list ++ [p], size := w.cache.size + 1 } := by
  simp only [step]
  rw [verify_fst_cache]

/-- A push step leaves the window duration alone. -/
theorem step_push_fst_timeFrame (w : Watchdog) (p now : Int) :
    (step w (Command.push p) now).1.timeFrame = w.timeFrame := by
  simp only [step]
  rw [verify_fst_timeFrame]

/-- The list component of the eviction loop result is a `dropWhile` of
the staleness test on the input list. -/
theorem evictLoop_fst_eq_dropWhile (tf : Int) (now : Int) (l : List Int) :
    ∀ size : Nat,
      (evictLoop tf now l size).1 = l.dropWhile (fun t => decide (tf < now - t)) := by
  induction l with
  | nil => intro size; rfl
  | cons e rest ih =>
      intro size
      rw [evictLoop, List.dropWhile_cons]
      by_cases h : tf < now - e
      · rw [if_pos h, if_pos (by simpa using h)]
        exact ih (size - 1)
      · rw [if_neg h, if_neg (by simpa using h)]


/-- When the counter agrees with the list length, the eviction loop keeps
them agreeing: one decrement per removed element. -/
theorem evictLoop_snd_of_size_eq (tf : Int) (now : Int) (l : List Int) :
    ∀ size : Nat, size = l.length →
      (evictLoop tf now l size).2 = (evictLoop tf now l size).1.length := by
  induction l with
  | nil =>
      intro size hsz
      simpa [evictLoop] using hsz
  | cons e rest ih =>
      intro size hsz
      rw [evictLoop]
      by_cases h : tf < now - e
      · rw [if_pos h]
        exact ih (size - 1) (by simp at hsz; omega)
      · rw [if_neg h]
        simpa using hsz

/-- On a list sorted in non-decreasing order, the eviction loop started at
the length of the list leaves the counter at exactly the number of elements
still inside the window. -/
theorem evictLoop_snd_sorted_count (tf : Int) (now : Int) (l : List Int)
    (hs : List.Sorted (· ≤ ·) l) :
    (evictLoop tf now l l.length).2 = l.countP (fun t => decide (now - t ≤ tf)) := by
  induction l with
  | nil => rfl
  | cons e rest ih =>
      rw [List.sorted_cons] at hs
      obtain ⟨hall, hrest⟩ := hs
      rw [evictLoop]
      by_cases h : tf < now - e
      · rw [if_pos h]
        have hnot : ¬ (now - e ≤ tf) := by omega
        rw [List.countP_cons_of_neg (fun t => decide (now - t ≤ tf)) rest (by simpa using hnot)]
        have hlen : (e :: rest).length - 1 = rest.length := by simp
        rw [hlen]
        exact ih hrest
      · rw [if_neg h]
        have hpred : ∀ a ∈ e :: rest, now - a ≤ tf := by
          intro a ha
          rcases List.mem_cons.mp ha with rfl | hmem
          · omega
          · have hab := hall a hmem
            omega
        have hcount : List.countP (fun t => decide (now - t ≤ tf)) (e :: rest) =
            (e :: rest).length := by
          refine List.countP_eq_length.mpr ?_
          intro a ha
          simpa using hpred a ha
        rw [hcount]

/-- Pushing a list of hits appends them, in order, at the tail of the cache. -/
theorem runPushes_cache_list (ts : List Int) (now : Int) :
    ∀ w : Watchdog, (runPushes w ts now).cache.list = w.cache.list ++ ts := by
  induction ts with
  | nil =>
      intro w
      simp [runPushes]
  | cons t rest ih =>
      intro w
      have h1 : runPushes w (t :: rest) now =
          runPushes ((step w (Command.push t) now).1) rest now := rfl
      rw [h1, ih, step_push_fst_cache]
      simp

/-- Pushing a list of hits adds its length to the counter of the cache. -/
theorem runPushes_cache_size (ts : List Int) (now : Int) :
    ∀ w : Watchdog, (runPushes w ts now).cache.size = w.cache.size + ts.length := by
  induction ts with
  | nil =>
      intro w
      simp [runPushes]
  | cons t rest ih =>
      intro w
      have h1 : runPushes w (t :: rest) now =
          runPushes ((step w (Command.push t) now).1) rest now := rfl
      rw [h1, ih, step_push_fst_cache]
      simp
      omega

/-- Pushing hits leaves the window duration alone. -/
theorem runPushes_timeFrame (ts : List Int) (now : Int) :
    ∀ w : Watchdog, (runPushes w ts now).timeFrame = w.timeFrame := by
  induction ts with
  | nil =>
      intro w
      simp [runPushes]
  | cons t rest ih =>
      intro w
      have h1 : runPushes w (t :: rest) now =
          runPushes ((step w (Command.push t) now).1) rest now := rfl
      rw [h1, ih, step_push_fst_timeFrame]

/-! ### Claim theorems -/

/-- C1: for every cache state built from a sequence of pushes with weakly
increasing timestamps, after `evict(T, window)` the cache size equals the
number of pushed timestamps `t` with `T - t ≤ window`: eviction removes
exactly the head elements whose age strictly exceeds the window and stops
at the first element still within the window. -/
theorem evict_counts_window (parameters : Parameters) (ts : List Int) (pnow T : Int)
    (hs : List.Sorted (· ≤ ·) ts) :
    ((runPushes (NewWatchdog parameters) ts pnow).evict T).cache.size =
      ts.countP (fun t => decide (T - t ≤ parameters.AlertSpan)) := by
  have hl : (runPushes (NewWatchdog parameters) ts pnow).cache.list = ts := by
    rw [runPushes_cache_list]
    simp [NewWatchdog]
  have hsz : (runPushes (NewWatchdog parameters) ts pnow).cache.size = ts.length := by
    rw [runPushes_cache_size]
    simp [NewWatchdog]
  have htf : (runPushes (NewWatchdog parameters) ts pnow).timeFrame =
      parameters.AlertSpan := by
    rw [runPushes_timeFrame]
    rfl
  show (evictLoop (runPushes (NewWatchdog parameters) ts pnow).timeFrame T
      (runPushes (NewWatchdog parameters) ts pnow).cache.list
      (runPushes (NewWatchdog parameters) ts pnow).cache.size).2 = _
  rw [hl, hsz, htf]
  exact evictLoop_snd_sorted_count parameters.AlertSpan T ts hs

/-- C1 witness: pushing the sorted timestamps 1, 3, 5 and evicting at time
10 with window 6 keeps exactly the one timestamp aged at most 6. -/
theorem evict_counts_window_example :
    ((runPushes
        (NewWatchdog
          { Filter := "", CollectorFile := "", ProbePeriod := 0, AlertSpan := 6,
            AlertThreshold := 3, DisplayRefresh := 0, DisplayFormat := "", Output := "",
            WatchdogTick := 1, WatchdogBufSize := 0 })
        [1, 3, 5] 0).evict 10).cache.size =
      List.countP (fun t => decide ((10 : Int) - t ≤ 6)) [1, 3, 5] :=
  evict_counts_window
    { Filter := "", CollectorFile := "", ProbePeriod := 0, AlertSpan := 6,
      AlertThreshold := 3, DisplayRefresh := 0, DisplayFormat := "", Output := "",
      WatchdogTick := 1, WatchdogBufSize := 0 }
    [1, 3, 5] 0 10 (by decide)

/-- C2: in every state with the alert flag down and a non-empty cache
whose counter has reached the threshold, `verify` raises the flag and
emits exactly one non-recovery message whose body carries the current hit
count and the current time. -/
theorem verify_raises_alert (w : Watchdog) (now : Int)
    (ha : w.alert = false) (hne : w.cache.list ≠ [])
    (hth : w.threshold ≤ w.cache.size) :
    w.verify now =
      ({ w with alert := true },
       [{ recovery := false, body := MsgBody.alertText w.cache.size now,
          timestamp := 0 }]) := by
  rw [Watchdog.verify]
  rw [if_neg (by simpa [Nat.le_zero, List.length_eq_zero] using hne),
      if_pos hth, if_pos (by simp [ha])]
  rfl

/-- C2 witness: a concrete three-hit state at threshold 3 raises the
alert once with the hit count 3 in the body. -/
theorem verify_raises_alert_example :
    Watchdog.verify ⟨⟨0, [1, 2, 3], 3⟩, 120, 1, 3, false⟩ 5 =
      (⟨⟨0, [1, 2, 3], 3⟩, 120, 1, 3, true⟩,
       [{ recovery := false, body := MsgBody.alertText 3 5, timestamp := 0 }]) :=
  verify_raises_alert ⟨⟨0, [1, 2, 3], 3⟩, 120, 1, 3, false⟩ 5 rfl (by decide) (by decide)

/-- C3: in every state with the alert flag up in which the cache is empty
or the counter is below the threshold, `verify` lowers the flag and emits
exactly one recovery message whose body carries only the current time. -/
theorem verify_emits_recovery (w : Watchdog) (now : Int)
    (ha : w.alert = true)
    (h : w.cache.list = [] ∨ w.cache.size < w.threshold) :
    w.verify now =
      ({ w with alert := false },
       [{ recovery := true, body := MsgBody.recoveryText now, timestamp := 0 }]) := by
  rw [Watchdog.verify]
  by_cases he : w.cache.list.length ≤ 0
  · rw [if_pos he, if_pos ha]
    rfl
  · rcases h with hemp | hlt
    · exact absurd (show w.cache.list.length ≤ 0 by simp [hemp]) he
    · rw [if_neg he, if_neg (by omega), if_pos ha]
      rfl

/-- C3 witness: a concrete alerting state with one hit under threshold 3
recovers once with only the time in the body. -/
theorem verify_emits_recovery_example :
    Watchdog.verify ⟨⟨0, [1], 1⟩, 120, 1, 3, true⟩ 7 =
      (⟨⟨0, [1], 1⟩, 120, 1, 3, false⟩,
       [{ recovery := true, body := MsgBody.recoveryText 7, timestamp := 0 }]) :=
  verify_emits_recovery ⟨⟨0, [1], 1⟩, 120, 1, 3, true⟩ 7 rfl (Or.inr (by decide))

/-- C4 counterexample: with threshold 0, the alert flag up and an empty
cache, the pre-state matches the threshold comparison (`size() >=
threshold`), yet `verify` does not leave the state unchanged: the empty
cache check fires first, the flag flips and a recovery message is
emitted. -/
theorem verify_alerting_at_threshold_not_noop :
    (⟨⟨0, [], 0⟩, 120, 1, 0, true⟩ : Watchdog).alert = true ∧
    (⟨⟨0, [], 0⟩, 120, 1, 0, true⟩ : Watchdog).threshold ≤
      (⟨⟨0, [], 0⟩, 120, 1, 0, true⟩ : Watchdog).cache.size ∧
    (Watchdog.verify ⟨⟨0, [], 0⟩, 120, 1, 0, true⟩ 5).2 ≠ [] ∧
    (Watchdog.verify ⟨⟨0, [], 0⟩, 120, 1, 0, true⟩ 5).1.alert ≠
      (⟨⟨0, [], 0⟩, 120, 1, 0, true⟩ : Watchdog).alert := by
  decide

/-- C4 (amended): one `verify` call emits a message if and only if it
flips the alert flag, emits at most one message, and never touches the
cache; and when the pre-state already matches the check — the flag up
with a non-empty cache and the counter at or above the threshold, or the
flag down with the counter below the threshold — `verify` changes
nothing and emits nothing. -/
theorem verify_message_iff_flip (w : Watchdog) (now : Int) :
    ((w.verify now).2 ≠ [] ↔ (w.verify now).1.alert ≠ w.alert) ∧
    (w.verify now).2.length ≤ 1 ∧
    (w.verify now).1.cache = w.cache ∧
    (w.alert = true → w.cache.list ≠ [] → w.threshold ≤ w.cache.size →
      w.verify now = (w, [])) ∧
    (w.alert = false → w.cache.size < w.threshold → w.verify now = (w, [])) := by
  rw [Watchdog.verify]
  split_ifs with h1 h2 h3 h4 h5 <;> simp_all

/-- C4 witness: a concrete alerting state at or above threshold with a
non-empty cache is left unchanged with no message. -/
theorem verify_message_iff_flip_example :
    Watchdog.verify ⟨⟨0, [1, 2], 2⟩, 120, 1, 2, true⟩ 9 =
      (⟨⟨0, [1, 2], 2⟩, 120, 1, 2, true⟩, []) :=
  (verify_message_iff_flip ⟨⟨0, [1, 2], 2⟩, 120, 1, 2, true⟩ 9).2.2.2.1 rfl
    (by decide) (by decide)

/-- C5: the counter of the cache equals the length of its list in the
state `NewWatchdog` builds, and every command-loop step preserves the
equality: a push appends one element and increments the counter once, an
eviction decrements it once per removed element, so `Hits`/`size()` is
the element count without recomputation. -/
theorem size_invariant (parameters : Parameters) :
    (NewWatchdog parameters).cache.size = (NewWatchdog parameters).cache.list.length ∧
    ∀ (w : Watchdog) (c : Command) (now : Int),
      w.cache.size = w.cache.list.length →
      (step w c now).1.cache.size = (step w c now).1.cache.list.length := by
  refine ⟨rfl, ?_⟩
  intro w c now h
  cases c with
  | shutdown => exact h
  | push p =>
      simp only [step_push_fst_cache]
      simp [h]
  | tick t =>
      show ((w.evict t).verify now).1.cache.size =
        ((w.evict t).verify now).1.cache.list.length
      rw [verify_fst_cache]
      show (evictLoop w.timeFrame t w.cache.list w.cache.size).2 =
        (evictLoop w.timeFrame t w.cache.list w.cache.size).1.length
      exact evictLoop_snd_of_size_eq w.timeFrame t w.cache.list w.cache.size h

/-- C5 witness: the invariant is preserved by a concrete push step. -/
theorem size_invariant_example :
    (step ⟨⟨0, [1, 2], 2⟩, 120, 1, 3, false⟩ (Command.push 5) 0).1.cache.size =
      (step ⟨⟨0, [1, 2], 2⟩, 120, 1, 3, false⟩ (Command.push 5) 0).1.cache.list.length :=
  (size_invariant LoadParams).2 ⟨⟨0, [1, 2], 2⟩, 120, 1, 3, false⟩ (Command.push 5) 0 rfl

/-- C6: in a tick step the eviction completes before the transition check
runs — the outcome of the step is exactly `verify` applied to the evicted
state — and in a push step the hit is appended and counted before the
check runs, so the `size()` the check reads reflects that push. -/
theorem step_ordering (w : Watchdog) (t p now : Int) :
    (step w (Command.tick t) now).1 = ((w.evict t).verify now).1 ∧
    (step w (Command.tick t) now).2.1 = ((w.evict t).verify now).2 ∧
    (step w (Command.push p) now).1.cache.list = w.cache.list ++ [p] ∧
    (step w (Command.push p) now).1.cache.size = w.cache.size + 1 ∧
    (step w (Command.push p) now).2.1 =
      (Watchdog.verify
        { w with cache :=
            { w.cache with list := w.cache.list ++ [p], size := w.cache.size + 1 } }
        now).2 := by
  refine ⟨rfl, rfl, ?_, ?_, rfl⟩
  · rw [step_push_fst_cache]
  · rw [step_push_fst_cache]

/-- C7: the shutdown step terminates the command loop (returns `false`)
without emitting any message and without touching the cache or the alert
flag, whatever the state — in particular when the flag is up, no final
recovery message is sent. -/
theorem step_shutdown_silent (w : Watchdog) (now : Int) :
    step w Command.shutdown now = (w, [], false) := rfl

/-- C8: evaluated at the all-zero configuration, `NewWatchdog` still
returns a fully formed `Watchdog`; like the Go signature `*Watchdog`, its
type has no error component, so a zero or negative window, threshold or
tick is not rejected at construction (the zero tick instead panics later
inside the goroutine, at `time.NewTicker`, on first use). -/
theorem newWatchdog_accepts_zero_config :
    NewWatchdog
        { Filter := "", CollectorFile := "", ProbePeriod := 0, AlertSpan := 0,
          AlertThreshold := 0, DisplayRefresh := 0, DisplayFormat := "", Output := "",
          WatchdogTick := 0, WatchdogBufSize := 0 } =
      { cache := { bufSize := 0, list := [], size := 0 }, timeFrame := 0, tick := 0,
        threshold := 0, alert := false } := rfl

/-- C9: the message built by `buildAlertMsg` always carries the zero time
value in its `timestamp` field, for alerts and recoveries alike and for
every transition time `t`; `t` only appears formatted inside the body. -/
theorem buildAlertMsg_timestamp_zero (w : Watchdog) (recovery : Bool) (t : Int) :
    (buildAlertMsg w recovery t).timestamp = 0 := rfl

/-- C10: for every cache contents, ordered or not, `evict` removes only a
contiguous head run of elements whose age strictly exceeds the window —
the surviving list is exactly the original with its stale head run
dropped, every removed element was stale, and everything from the first
in-window element onward is retained even if stale itself. -/
theorem evict_drops_only_stale_head (w : Watchdog) (now : Int) :
    (w.evict now).cache.list =
      w.cache.list.dropWhile (fun t => decide (w.timeFrame < now - t)) ∧
    w.cache.list =
      w.cache.list.takeWhile (fun t => decide (w.timeFrame < now - t)) ++
        (w.evict now).cache.list ∧
    ∀ x ∈ w.cache.list.takeWhile (fun t => decide (w.timeFrame < now - t)),
      w.timeFrame < now - x := by
  have h1 : (w.evict now).cache.list =
      w.cache.list.dropWhile (fun t => decide (w.timeFrame < now - t)) := by
    show (evictLoop w.timeFrame now w.cache.list w.cache.size).1 = _
    exact evictLoop_fst_eq_dropWhile w.timeFrame now w.cache.list w.cache.size
  refine ⟨h1, ?_, ?_⟩
  · rw [h1]
    exact (List.takeWhile_append_dropWhile _ _).symm
  · intro x hx
    have hp := List.mem_takeWhile_imp hx
    simpa using hp

end Gonetmon
